import Mathlib

/-!
Verification of src/src/assistant/utils.py: the result normalizer/formatter
(`deduplicate_and_format_sources`) and the bullet-list formatter
(`format_sources`).

Modelling choices (shallow embedding of the Python code):
* A well-formed search record (dict with keys `title`, `url`, `content`, and
  optionally `raw_content`) is a `Source`.  The `raw_content` key can be
  absent, present-but-`None`, or present with a string; we model it as
  `Option (Option String)` (`none` = key absent, `some none` = `None`,
  `some (some r)` = string `r`).
* The dynamically-shaped `search_response` argument is a tagged union
  `SearchResponse`: a dict (whose `results` key may be absent), a list of
  elements, or anything else (`other`).  A list element is a dict carrying a
  `results` list, a dict without a `results` key (Python's
  `sources_list.extend(response)` then iterates the dict's remaining string
  keys), or a bare sequence of records.
* Python exceptions become an `Except PyError` result: `valueError` is the
  explicit `raise ValueError(...)` (the spec's InvalidInput),
  `keyError` a failed dict lookup, `typeError` the failure of `source['url']`
  when `source` is a string.
* The `print` warning on `raw_content is None` is modelled by returning the
  list of printed warning lines next to the formatted string.
* Python string slicing/`len`/`strip` act on characters; we model them on the
  string's character list (`pySlice`, `String.length`, `pyStrip`).
-/

/-- A well-formed search record: Python dict with keys `title`, `url`,
`content` and an optional `raw_content` (absent / `None` / a string). -/
structure Source where
  title : String
  url : String
  content : String
  raw_content : Option (Option String)
deriving DecidableEq, Repr

/-- One element of a list-shaped `search_response`: a dict with a `results`
key, a dict without one (only its remaining keys matter to
`list.extend`), or a bare sequence of records. -/
inductive Elem where
  | dictWithResults (rs : List Source)
  | dictNoResults (keys : List String)
  | recs (rs : List Source)
deriving DecidableEq, Repr

/-- The dynamically-typed `search_response` argument: a dict (with the
`results` key present or absent), a list, or any other Python value. -/
inductive SearchResponse where
  | dict (results : Option (List Source))
  | list (elems : List Elem)
  | other
deriving DecidableEq, Repr

/-- An entry of the flattened `sources_list`: a record, or a stray string
(a key of a dict that went through `sources_list.extend(response)`). -/
inductive Item where
  | record (s : Source)
  | str (k : String)
deriving DecidableEq, Repr

/-- The Python exceptions the modelled code can raise. -/
inductive PyError where
  | valueError (msg : String)
  | keyError (key : String)
  | typeError
deriving DecidableEq, Repr

/-- Python `s[:n]`: the first `n` characters of `s`. -/
def pySlice (n : Nat) (s : String) : String :=
  ⟨s.data.take n⟩

/-- Python `str.strip()` on a character list: drop whitespace from both
ends. -/
def pyStripList (l : List Char) : List Char :=
  ((l.dropWhile Char.isWhitespace).reverse.dropWhile Char.isWhitespace).reverse

/-- Python `str.strip()`: drop leading and trailing whitespace. -/
def pyStrip (s : String) : String :=
  ⟨pyStripList s.data⟩

/-- Python `sep.join(l)`. -/
def pyJoin (sep : String) : List String → String
  | [] => ""
  | [s] => s
  | s :: rest => s ++ sep ++ pyJoin sep rest

/-- The items contributed to `sources_list` by one element of a list-shaped
input: `response['results']` when the element is a dict with a `results`
key, the dict's keys when it is a dict without one, the records themselves
when it is a bare sequence (utils.py lines 36-41). -/
def elemItems : Elem → List Item
  | .dictWithResults rs => rs.map Item.record
  | .dictNoResults keys => keys.map Item.str
  | .recs rs => rs.map Item.record

/-- Lines 33-43 of utils.py: normalize `search_response` into the flat
`sources_list`, raising `KeyError` for a dict without `results` and
`ValueError` for a non-dict non-list input. -/
def normalizeResponse : SearchResponse → Except PyError (List Item)
  | .dict (some rs) => .ok (rs.map Item.record)
  | .dict none => .error (.keyError "results")
  | .list elems => .ok (elems.foldr (fun e acc => elemItems e ++ acc) [])
  | .other =>
      .error (.valueError
        "Input must be either a dict with 'results' or a list of search results")

/-- Python `source['url'] in unique_sources`: is a url already a key of the
ordered dedup map (modelled as the list of inserted records)? -/
def hasUrl (acc : List Source) (u : String) : Bool :=
  acc.any (fun t => t.url == u)

/-- Lines 46-49 of utils.py: the deduplication loop.  `acc` is the ordered
`unique_sources` dict (keyed by url, insertion order = list order);
`source['url']` on a stray string raises `TypeError`. -/
def dedupSources : List Source → List Item → Except PyError (List Source)
  | acc, [] => .ok acc
  | _, .str _ :: _ => .error .typeError
  | acc, .record s :: rest =>
      if hasUrl acc s.url then dedupSources acc rest
      else dedupSources (acc ++ [s]) rest

/-- Lines 55-68 of utils.py: the text block and printed warnings for one
unique source. -/
def formatSource (s : Source) (max_tokens_per_source : Nat)
    (include_raw_content : Bool) : String × List String :=
  let base := "Source " ++ s.title ++ ":\n===\n"
      ++ "URL: " ++ s.url ++ "\n===\n"
      ++ "Most relevant content from source: " ++ s.content ++ "\n===\n"
  if include_raw_content then
    let char_limit := max_tokens_per_source * 4
    let rawAndWarn : String × List String :=
      match s.raw_content with
      | none => ("", [])
      | some none => ("", ["Warning: No raw_content found for source " ++ s.url])
      | some (some r) => (r, [])
    let raw :=
      if rawAndWarn.1.length > char_limit
      then pySlice char_limit rawAndWarn.1 ++ "... [truncated]"
      else rawAndWarn.1
    (base ++ "Full source content limited to " ++ toString max_tokens_per_source
       ++ " tokens: " ++ raw ++ "\n\n",
     rawAndWarn.2)
  else (base, [])

/-- Lines 54-68 of utils.py: concatenate the per-source blocks in insertion
order, collecting the printed warnings. -/
def formatBlocks : List Source → Nat → Bool → String × List String
  | [], _, _ => ("", [])
  | s :: rest, mt, inc =>
      let bw := formatSource s mt inc
      let rw := formatBlocks rest mt inc
      (bw.1 ++ rw.1, bw.2 ++ rw.2)

/-- `deduplicate_and_format_sources` (utils.py lines 18-69): normalize the
input, deduplicate by url (first occurrence wins), render the blocks after a
"Sources:" header, and strip the result.  Returns the formatted string and
the warnings printed along the way. -/
def deduplicate_and_format_sources (search_response : SearchResponse)
    (max_tokens_per_source : Nat) (include_raw_content : Bool := false) :
    Except PyError (String × List String) :=
  match normalizeResponse search_response with
  | .error e => .error e
  | .ok items =>
    match dedupSources [] items with
    | .error e => .error e
    | .ok uniq =>
      let bw := formatBlocks uniq max_tokens_per_source include_raw_content
      .ok (pyStrip ("Sources:\n\n" ++ bw.1), bw.2)

/-- `format_sources` (utils.py lines 71-83): bullet list `* title : url` per
record, newline-joined.  The argument is the `results` value of the input
dict (`none` when the key is absent, which raises `KeyError`). -/
def format_sources (search_results : Option (List Source)) :
    Except PyError String :=
  match search_results with
  | none => .error (.keyError "results")
  | some rs =>
      .ok (pyJoin "\n" (rs.map (fun s => "* " ++ s.title ++ " : " ++ s.url)))

/-- Spec-side reference deduplication, following the spec's words: "output
preserves the record order of `results` minus later duplicates by url" /
"first occurrence wins, insertion order is otherwise preserved".  Keep each
record and delete every later record with the same url. -/
def firstOccurrencesSpec : List Source → List Source
  | [] => []
  | s :: rest =>
      s :: firstOccurrencesSpec (rest.filter (fun t => !(t.url == s.url)))
termination_by l => l.length
decreasing_by
  simp only [List.length_cons]
  exact Nat.lt_succ_of_le (List.length_filter_le _ _)

/-- A list element of the shape the spec calls valid: a mapping with a
`results` key, or a bare sequence of records. -/
def goodElem (e : Elem) : Prop :=
  (∃ rs, e = Elem.dictWithResults rs) ∨ (∃ rs, e = Elem.recs rs)

/-- The raw string the code substitutes for a `raw_content` value before
truncation (utils.py lines 60-64): the string itself when present, ""
when the key is absent or its value is `None`. -/
def rawOf : Option (Option String) → String
  | none => ""
  | some none => ""
  | some (some r) => r

/-- The warning lines printed for a `raw_content` value (utils.py line 64):
one warning naming the url exactly when the key is present with value
`None`. -/
def warnOf : Option (Option String) → String → List String
  | none, _ => []
  | some none, u => ["Warning: No raw_content found for source " ++ u]
  | some (some _), _ => []

lemma str_eq_of_data (a b : String) (h : a.data = b.data) : a = b := by
  cases a; cases b; exact congrArg String.mk h

lemma str_data_append (a b : String) : (a ++ b).data = a.data ++ b.data := rfl

@[simp] lemma str_append_empty (s : String) : s ++ "" = s := by
  apply str_eq_of_data; simp [str_data_append]

lemma strBeq_comm (a b : String) : (a == b) = (b == a) := by
  by_cases h : a = b
  · simp [h]
  · have h2 : ¬ b = a := fun hh => h hh.symm
    simp [h, h2]

lemma rev_append_cons (A : List Char) (c : Char) (B : List Char) :
    (A ++ c :: B).reverse = B.reverse ++ c :: A.reverse := by
  simp

lemma dropWhile_append_of_not (p : Char → Bool) (c : Char) (hc : p c = false) :
    ∀ (a b : List Char), (a ++ c :: b).dropWhile p = a.dropWhile p ++ c :: b
  | [], b => by simp [List.dropWhile_cons, hc]
  | x :: a, b => by
      by_cases hx : p x
      · simp [List.dropWhile_cons, hx, dropWhile_append_of_not p c hc a b]
      · simp [List.dropWhile_cons, hx]

lemma pyStripList_split (l1 : List Char) (c : Char) (hc : c.isWhitespace = false)
    (l2 : List Char) :
    pyStripList (l1 ++ c :: l2)
      = l1.dropWhile Char.isWhitespace
        ++ c :: (l2.reverse.dropWhile Char.isWhitespace).reverse := by
  unfold pyStripList
  rw [dropWhile_append_of_not _ _ hc, rev_append_cons,
    dropWhile_append_of_not _ _ hc, rev_append_cons, List.reverse_reverse]

lemma hasUrl_append (acc1 acc2 : List Source) (u : String) :
    hasUrl (acc1 ++ acc2) u = (hasUrl acc1 u || hasUrl acc2 u) := by
  simp [hasUrl]

lemma firstOccurrencesSpec_cons (s : Source) (rest : List Source) :
    firstOccurrencesSpec (s :: rest)
      = s :: firstOccurrencesSpec (rest.filter (fun t => !(t.url == s.url))) := by
  rw [firstOccurrencesSpec]

/-- The dedup loop of utils.py lines 46-49 computes exactly the spec-side
first-occurrence dedup of the records not already keyed in `acc`, appended
to `acc` in insertion order. -/
lemma dedupSources_eq :
    ∀ (n : Nat) (rs : List Source), rs.length ≤ n → ∀ acc : List Source,
      dedupSources acc (rs.map Item.record)
        = .ok (acc ++ firstOccurrencesSpec
            (rs.filter (fun s => !(hasUrl acc s.url)))) := by
  intro n
  induction n with
  | zero =>
      intro rs h acc
      have hrs : rs = [] := List.eq_nil_of_length_eq_zero (Nat.le_zero.mp h)
      subst hrs
      simp [dedupSources, firstOccurrencesSpec]
  | succ n ih =>
      intro rs h acc
      match rs with
      | [] => simp [dedupSources, firstOccurrencesSpec]
      | s :: rest =>
        have hlen : rest.length ≤ n := by
          simpa using Nat.le_of_succ_le_succ (by simpa using h)
        simp only [List.map_cons, dedupSources]
        by_cases hs : hasUrl acc s.url
        · rw [if_pos hs, ih rest hlen acc]
          have hfil : (s :: rest).filter (fun t => !(hasUrl acc t.url))
              = rest.filter (fun t => !(hasUrl acc t.url)) := by
            rw [List.filter_cons_of_neg]
            simp [hs]
          rw [hfil]
        · rw [if_neg hs, ih rest hlen (acc ++ [s])]
          have hfil : (s :: rest).filter (fun t => !(hasUrl acc t.url))
              = s :: rest.filter (fun t => !(hasUrl acc t.url)) := by
            rw [List.filter_cons_of_pos]
            simp [hs]
          rw [hfil, firstOccurrencesSpec_cons, List.filter_filter]
          have hpred : rest.filter (fun t => !(hasUrl (acc ++ [s]) t.url))
              = rest.filter (fun t => !(t.url == s.url) && !(hasUrl acc t.url)) := by
            apply List.filter_congr
            intro x _
            simp [hasUrl_append, hasUrl, Bool.not_or, strBeq_comm s.url x.url,
              Bool.and_comm]
          rw [hpred]
          simp

/-- utils.py on a single-mapping input: the result is the formatted render
of the spec-side first-occurrence dedup of `results`. -/
lemma dedup_dict (rs : List Source) (mt : Nat) (inc : Bool) :
    deduplicate_and_format_sources (.dict (some rs)) mt inc
      = .ok (pyStrip ("Sources:\n\n"
               ++ (formatBlocks (firstOccurrencesSpec rs) mt inc).1),
             (formatBlocks (firstOccurrencesSpec rs) mt inc).2) := by
  have h := dedupSources_eq rs.length rs (Nat.le_refl _) []
  simp only [hasUrl, List.any_nil, Bool.not_false, List.filter_true,
    List.nil_append] at h
  simp [deduplicate_and_format_sources, normalizeResponse, h]

/-- The spec-side dedup keeps an order-preserving subsequence of its
input. -/
lemma firstOccurrencesSpec_sublist :
    ∀ (n : Nat) (rs : List Source), rs.length ≤ n →
      List.Sublist (firstOccurrencesSpec rs) rs := by
  intro n
  induction n with
  | zero =>
      intro rs h
      have hrs : rs = [] := List.eq_nil_of_length_eq_zero (Nat.le_zero.mp h)
      subst hrs
      simp [firstOccurrencesSpec]
  | succ n ih =>
      intro rs h
      match rs with
      | [] => simp [firstOccurrencesSpec]
      | s :: rest =>
        rw [firstOccurrencesSpec_cons]
        apply List.Sublist.cons₂
        apply List.Sublist.trans
          (ih _ (Nat.le_trans (List.length_filter_le _ _)
            (by simpa using Nat.le_of_succ_le_succ (by simpa using h))))
        exact List.filter_sublist rest

/-- Dropping a record whose url already occurred earlier does not change the
spec-side dedup. -/
lemma firstOccurrencesSpec_drop :
    ∀ (n : Nat) (xs : List Source), xs.length ≤ n →
      ∀ (r2 : Source) (ys : List Source), (∃ r1 ∈ xs, r1.url = r2.url) →
        firstOccurrencesSpec (xs ++ r2 :: ys) = firstOccurrencesSpec (xs ++ ys) := by
  intro n
  induction n with
  | zero =>
      intro xs h r2 ys hex
      have hxs : xs = [] := List.eq_nil_of_length_eq_zero (Nat.le_zero.mp h)
      subst hxs
      obtain ⟨r1, hr1, _⟩ := hex
      simp at hr1
  | succ n ih =>
      intro xs h r2 ys hex
      match xs with
      | [] =>
          obtain ⟨r1, hr1, _⟩ := hex
          simp at hr1
      | x :: xs1 =>
        have hlen : xs1.length ≤ n := by
          simpa using Nat.le_of_succ_le_succ (by simpa using h)
        simp only [List.cons_append]
        rw [firstOccurrencesSpec_cons, firstOccurrencesSpec_cons]
        apply congrArg (List.cons x)
        rw [List.filter_append, List.filter_append]
        by_cases hx : r2.url = x.url
        · rw [List.filter_cons_of_neg (by simp [hx])]
        · rw [List.filter_cons_of_pos (by simp [hx])]
          obtain ⟨r1, hr1, hurl⟩ := hex
          have hr1x : r1 ∈ xs1 := by
            cases List.mem_cons.mp hr1 with
            | inl heq => exact absurd (heq ▸ hurl) (fun hh => hx hh.symm)
            | inr hmem => exact hmem
          apply ih _ (Nat.le_trans (List.length_filter_le _ _) hlen)
          refine ⟨r1, ?_, hurl⟩
          rw [List.mem_filter]
          refine ⟨hr1x, ?_⟩
          have hne : ¬ r1.url = x.url := fun hh => hx (hurl ▸ hh)
          simp [hne]

/-- The dedup loop skips a record whose url is already in `acc` or occurs
on an earlier record of the item list, on any item list (stray strings
before or after fail identically on both sides). -/
lemma dedupSources_skip :
    ∀ (items1 : List Item) (acc : List Source) (r2 : Source)
      (items2 : List Item),
      (hasUrl acc r2.url = true
        ∨ ∃ r1, Item.record r1 ∈ items1 ∧ r1.url = r2.url) →
      dedupSources acc (items1 ++ Item.record r2 :: items2)
        = dedupSources acc (items1 ++ items2)
  | [], acc, r2, items2 => by
      intro h
      have hacc : hasUrl acc r2.url = true := by
        cases h with
        | inl h => exact h
        | inr h =>
            obtain ⟨r1, hr1, _⟩ := h
            simp at hr1
      simp only [List.nil_append, dedupSources, hacc, if_pos]
  | .str k :: rest, _, _, _ => fun _ => rfl
  | .record s :: rest, acc, r2, items2 => by
      intro h
      simp only [List.cons_append, dedupSources]
      by_cases hu : hasUrl acc s.url
      · simp only [if_pos hu]
        apply dedupSources_skip rest acc r2 items2
        cases h with
        | inl hacc => exact Or.inl hacc
        | inr hex =>
            obtain ⟨r1, hr1, hurl⟩ := hex
            cases List.mem_cons.mp hr1 with
            | inl hhead =>
                have hs : r1 = s := by injection hhead
                have hsu : s.url = r2.url := hs ▸ hurl
                exact Or.inl (hsu ▸ hu)
            | inr htail => exact Or.inr ⟨r1, htail, hurl⟩
      · simp only [if_neg hu]
        apply dedupSources_skip rest (acc ++ [s]) r2 items2
        cases h with
        | inl hacc => exact Or.inl (by simp [hasUrl_append, hacc])
        | inr hex =>
            obtain ⟨r1, hr1, hurl⟩ := hex
            cases List.mem_cons.mp hr1 with
            | inl hhead =>
                have hs : r1 = s := by injection hhead
                refine Or.inl ?_
                have hsu : s.url = r2.url := hs ▸ hurl
                simp [hasUrl_append, hasUrl, hsu]
            | inr htail => exact Or.inr ⟨r1, htail, hurl⟩

/-- Dropping a record whose url occurred on an earlier record of the
flattened `sources_list` leaves the formatter's output unchanged, for
inputs of any shape. -/
lemma dedup_drop (sr1 sr2 : SearchResponse) (mt : Nat) (inc : Bool)
    (pre : List Item) (r2 : Source) (post : List Item)
    (h1 : normalizeResponse sr1 = .ok (pre ++ Item.record r2 :: post))
    (h2 : normalizeResponse sr2 = .ok (pre ++ post))
    (hex : ∃ r1, Item.record r1 ∈ pre ∧ r1.url = r2.url) :
    deduplicate_and_format_sources sr1 mt inc
      = deduplicate_and_format_sources sr2 mt inc := by
  simp only [deduplicate_and_format_sources, h1, h2,
    dedupSources_skip pre [] r2 post (Or.inr hex)]

/-- Claim C1: on every input (single mapping or list of collections) whose
flattened record sequence contains an earlier record with the same url, a
later duplicate record is dropped entirely: the output equals the output
for the input without it.  Instantiated to single-mapping inputs, to a
cross-collection duplicate in a list-shaped input, and evaluated on the
spec's example, whose output is the single block for the first record,
titled "A", with no trace of "B". -/
theorem dedup_first_seen_wins :
    (∀ (sr1 sr2 : SearchResponse) (mt : Nat) (inc : Bool) (pre : List Item)
        (r2 : Source) (post : List Item),
      normalizeResponse sr1 = .ok (pre ++ Item.record r2 :: post) →
      normalizeResponse sr2 = .ok (pre ++ post) →
      (∃ r1, Item.record r1 ∈ pre ∧ r1.url = r2.url) →
      deduplicate_and_format_sources sr1 mt inc
        = deduplicate_and_format_sources sr2 mt inc)
    ∧ (∀ (xs : List Source) (r2 : Source) (ys : List Source) (mt : Nat)
        (inc : Bool), (∃ r1 ∈ xs, r1.url = r2.url) →
      deduplicate_and_format_sources (.dict (some (xs ++ r2 :: ys))) mt inc
        = deduplicate_and_format_sources (.dict (some (xs ++ ys))) mt inc)
    ∧ (∀ (rs1 xs ys : List Source) (r2 : Source) (mt : Nat) (inc : Bool),
      (∃ r1 ∈ rs1, r1.url = r2.url) →
      deduplicate_and_format_sources
          (.list [.dictWithResults rs1, .dictWithResults (xs ++ r2 :: ys)])
          mt inc
        = deduplicate_and_format_sources
            (.list [.dictWithResults rs1, .dictWithResults (xs ++ ys)])
            mt inc)
    ∧ deduplicate_and_format_sources
        (.dict (some [⟨"A", "u1", "c1", none⟩, ⟨"B", "u1", "c2", none⟩])) 5 false
        = .ok ("Sources:\n\nSource A:\n===\nURL: u1\n===\nMost relevant content from source: c1\n===",
               []) := by
  refine ⟨fun sr1 sr2 mt inc pre r2 post h1 h2 hex =>
      dedup_drop sr1 sr2 mt inc pre r2 post h1 h2 hex, ?_, ?_, rfl⟩
  · intro xs r2 ys mt inc hex
    obtain ⟨r1, hr1, hurl⟩ := hex
    apply dedup_drop _ _ mt inc (xs.map Item.record) r2 (ys.map Item.record)
    · simp [normalizeResponse]
    · simp [normalizeResponse]
    · exact ⟨r1, List.mem_map_of_mem Item.record hr1, hurl⟩
  · intro rs1 xs ys r2 mt inc hex
    obtain ⟨r1, hr1, hurl⟩ := hex
    apply dedup_drop _ _ mt inc
      (rs1.map Item.record ++ xs.map Item.record) r2 (ys.map Item.record)
    · simp [normalizeResponse, elemItems, List.append_assoc]
    · simp [normalizeResponse, elemItems, List.append_assoc]
    · exact ⟨r1, List.mem_append.mpr
        (Or.inl (List.mem_map_of_mem Item.record hr1)), hurl⟩

/-- Witness for C1: a concrete cross-collection duplicate in a list-shaped
input, and the spec's concrete single-mapping example. -/
theorem dedup_first_seen_wins_witness :
    deduplicate_and_format_sources
        (.list [.dictWithResults [⟨"A", "u1", "c1", none⟩],
                .dictWithResults [⟨"B", "u1", "c2", none⟩,
                                  ⟨"C", "u2", "c3", none⟩]]) 5 false
      = deduplicate_and_format_sources
          (.list [.dictWithResults [⟨"A", "u1", "c1", none⟩],
                  .dictWithResults [⟨"C", "u2", "c3", none⟩]]) 5 false
    ∧ deduplicate_and_format_sources
        (.dict (some ([⟨"A", "u1", "c1", none⟩]
          ++ (⟨"B", "u1", "c2", none⟩ : Source) :: []))) 5 false
      = deduplicate_and_format_sources
          (.dict (some ([⟨"A", "u1", "c1", none⟩] ++ []))) 5 false :=
  ⟨dedup_first_seen_wins.1
      (.list [.dictWithResults [⟨"A", "u1", "c1", none⟩],
              .dictWithResults [⟨"B", "u1", "c2", none⟩,
                                ⟨"C", "u2", "c3", none⟩]])
      (.list [.dictWithResults [⟨"A", "u1", "c1", none⟩],
              .dictWithResults [⟨"C", "u2", "c3", none⟩]])
      5 false [Item.record ⟨"A", "u1", "c1", none⟩] ⟨"B", "u1", "c2", none⟩
      [Item.record ⟨"C", "u2", "c3", none⟩] rfl rfl
      ⟨⟨"A", "u1", "c1", none⟩, by simp, rfl⟩,
   dedup_first_seen_wins.2.1 [⟨"A", "u1", "c1", none⟩] ⟨"B", "u1", "c2", none⟩
      [] 5 false ⟨⟨"A", "u1", "c1", none⟩, List.mem_singleton_self _, rfl⟩⟩

/-- Claim C5: on a single-mapping input the output is the render, in order,
of the spec-side first-occurrence dedup of `results`, which is an
order-preserving subsequence of `results`. -/
theorem dedup_preserves_order :
    ∀ (rs : List Source) (mt : Nat) (inc : Bool),
      deduplicate_and_format_sources (.dict (some rs)) mt inc
        = .ok (pyStrip ("Sources:\n\n"
                 ++ (formatBlocks (firstOccurrencesSpec rs) mt inc).1),
               (formatBlocks (firstOccurrencesSpec rs) mt inc).2)
      ∧ List.Sublist (firstOccurrencesSpec rs) rs :=
  fun rs mt inc =>
    ⟨dedup_dict rs mt inc,
     firstOccurrencesSpec_sublist rs.length rs (Nat.le_refl _)⟩

/-- Claim C6: wrapping a single collection in a one-element list does not
change the output. -/
theorem dedup_wrapped_single :
    ∀ (rs : List Source) (mt : Nat) (inc : Bool),
      deduplicate_and_format_sources (.list [.dictWithResults rs]) mt inc
        = deduplicate_and_format_sources (.dict (some rs)) mt inc := by
  intro rs mt inc
  simp [deduplicate_and_format_sources, normalizeResponse, elemItems]

/-- Claim C7: `format_sources` renders one `* title : url` line per record,
newline-joined, in input order and without deduplication (a repeated url
still yields both lines); on the spec's example the output is exactly
"* X : u1\n* Y : u2". -/
theorem format_sources_bullets :
    (∀ rs : List Source,
      format_sources (some rs)
        = .ok (pyJoin "\n" (rs.map (fun s => "* " ++ s.title ++ " : " ++ s.url))))
    ∧ format_sources (some [⟨"X", "u1", "", none⟩, ⟨"Y", "u2", "", none⟩])
        = .ok "* X : u1\n* Y : u2"
    ∧ format_sources (some [⟨"X", "u1", "", none⟩, ⟨"Y", "u1", "", none⟩])
        = .ok "* X : u1\n* Y : u1" :=
  ⟨fun _ => rfl, rfl, rfl⟩

lemma formatSource_no_raw (s : Source) (t1 t2 : Nat) :
    formatSource s t1 false = formatSource s t2 false := by
  simp [formatSource]

lemma formatBlocks_no_raw :
    ∀ (rs : List Source) (t1 t2 : Nat),
      formatBlocks rs t1 false = formatBlocks rs t2 false
  | [], _, _ => rfl
  | s :: rest, t1, t2 => by
      simp only [formatBlocks, formatSource_no_raw s t1 t2,
        formatBlocks_no_raw rest t1 t2]

/-- Claim C8: with `include_raw_content = false` the value of
`max_tokens_per_source` has no influence on the result, for every input. -/
theorem max_tokens_no_influence :
    ∀ (sr : SearchResponse) (t1 t2 : Nat),
      deduplicate_and_format_sources sr t1 false
        = deduplicate_and_format_sources sr t2 false := by
  intro sr t1 t2
  cases hn : normalizeResponse sr with
  | error e => simp [deduplicate_and_format_sources, hn]
  | ok items =>
      cases hd : dedupSources [] items with
      | error e => simp [deduplicate_and_format_sources, hn, hd]
      | ok uniq =>
          simp [deduplicate_and_format_sources, hn, hd,
            formatBlocks_no_raw uniq t1 t2]

/-- Every successful result of the formatter is the stripped concatenation
of the "Sources:" header and the rendered blocks. -/
lemma dedup_ok_shape (sr : SearchResponse) (mt : Nat) (inc : Bool)
    (out : String) (ws : List String)
    (h : deduplicate_and_format_sources sr mt inc = .ok (out, ws)) :
    ∃ body : String, out = pyStrip ("Sources:\n\n" ++ body) := by
  cases hn : normalizeResponse sr with
  | error e => simp [deduplicate_and_format_sources, hn] at h
  | ok items =>
      cases hd : dedupSources [] items with
      | error e => simp [deduplicate_and_format_sources, hn, hd] at h
      | ok uniq =>
          refine ⟨(formatBlocks uniq mt inc).1, ?_⟩
          simp [deduplicate_and_format_sources, hn, hd] at h
          exact h.1.symm

/-- Stripping never eats into the header: the result still starts with
"Sources:". -/
lemma pyStrip_header (body : String) :
    ∃ t : String, pyStrip ("Sources:\n\n" ++ body) = "Sources:" ++ t := by
  refine ⟨⟨((('\n' :: '\n' :: body.data).reverse).dropWhile Char.isWhitespace).reverse⟩, ?_⟩
  have hdata : ("Sources:\n\n" ++ body).data
      = ['S','o','u','r','c','e','s'] ++ ':' :: ('\n' :: '\n' :: body.data) := rfl
  apply str_eq_of_data
  show pyStripList (("Sources:\n\n" ++ body).data) = _
  rw [hdata, pyStripList_split _ _ (by decide)]
  have hdrop : (['S','o','u','r','c','e','s'] : List Char).dropWhile Char.isWhitespace
      = ['S','o','u','r','c','e','s'] := by decide
  rw [hdrop]
  rfl

/-- Claim C10: every successful output starts with the header "Sources:",
and on the empty-results input the output is exactly "Sources:". -/
theorem dedup_output_header :
    (∀ (sr : SearchResponse) (mt : Nat) (inc : Bool) (out : String)
        (ws : List String),
      deduplicate_and_format_sources sr mt inc = .ok (out, ws) →
      ∃ t : String, out = "Sources:" ++ t)
    ∧ deduplicate_and_format_sources (.dict (some [])) 5 false
        = .ok ("Sources:", []) := by
  constructor
  · intro sr mt inc out ws h
    obtain ⟨body, hb⟩ := dedup_ok_shape sr mt inc out ws h
    obtain ⟨t, ht⟩ := pyStrip_header body
    exact ⟨t, hb.trans ht⟩
  · rfl

/-- Witness for C10 at the empty-results input. -/
theorem dedup_output_header_witness :
    deduplicate_and_format_sources (.dict (some [])) 5 false
      = .ok ("Sources:", [])
    ∧ ∃ t : String, ("Sources:" : String) = "Sources:" ++ t :=
  ⟨rfl, dedup_output_header.1 (.dict (some [])) 5 false "Sources:" [] rfl⟩

/-- The dedup loop succeeds on any list of genuine records. -/
lemma dedupSources_ok :
    ∀ (items : List Item), (∀ i ∈ items, ∃ s, i = Item.record s) →
      ∀ acc : List Source, ∃ out, dedupSources acc items = .ok out
  | [], _, acc => ⟨acc, rfl⟩
  | i :: rest, h, acc => by
      obtain ⟨s, hs⟩ := h i (List.mem_cons_self i rest)
      subst hs
      have hrest : ∀ j ∈ rest, ∃ s, j = Item.record s :=
        fun j hj => h j (List.mem_cons_of_mem _ hj)
      by_cases hu : hasUrl acc s.url
      · obtain ⟨out, hout⟩ := dedupSources_ok rest hrest acc
        exact ⟨out, by simp [dedupSources, hu, hout]⟩
      · obtain ⟨out, hout⟩ := dedupSources_ok rest hrest (acc ++ [s])
        exact ⟨out, by simp [dedupSources, hu, hout]⟩

/-- The only exception the dedup loop itself can raise is `TypeError`. -/
lemma dedupSources_error :
    ∀ (items : List Item) (acc : List Source) (e : PyError),
      dedupSources acc items = .error e → e = .typeError
  | [], acc, e => by simp [dedupSources]
  | .str k :: rest, acc, e => by
      intro h
      simpa [dedupSources] using h.symm
  | .record s :: rest, acc, e => by
      intro h
      by_cases hu : hasUrl acc s.url
      · simp only [dedupSources, if_pos hu] at h
        exact dedupSources_error rest acc e h
      · simp only [dedupSources, if_neg hu] at h
        exact dedupSources_error rest (acc ++ [s]) e h

/-- A valid-shape list input flattens to genuine records only. -/
lemma goodElems_items :
    ∀ (elems : List Elem), (∀ e ∈ elems, goodElem e) →
      ∀ i ∈ elems.foldr (fun e acc => elemItems e ++ acc) [],
        ∃ s, i = Item.record s
  | [], _, i => by simp
  | e :: rest, h, i => by
      intro hi
      simp only [List.foldr_cons] at hi
      cases List.mem_append.mp hi with
      | inl hin =>
          cases h e (List.mem_cons_self e rest) with
          | inl hdict =>
              obtain ⟨rs, hrs⟩ := hdict
              subst hrs
              obtain ⟨s, _, hs⟩ := List.mem_map.mp hin
              exact ⟨s, hs.symm⟩
          | inr hrecs =>
              obtain ⟨rs, hrs⟩ := hrecs
              subst hrs
              obtain ⟨s, _, hs⟩ := List.mem_map.mp hin
              exact ⟨s, hs.symm⟩
      | inr hin =>
          exact goodElems_items rest
            (fun j hj => h j (List.mem_cons_of_mem _ hj)) i hin

/-- Claim C4 (amended): the InvalidInput `ValueError` is raised exactly when
the input is neither a dict nor a list; a dict without a `results` key
raises `KeyError` instead; every dict with `results`, and every list of
dicts-with-`results` and/or bare record sequences, returns normally. -/
theorem invalid_input_exact :
    (∀ (mt : Nat) (inc : Bool),
      deduplicate_and_format_sources .other mt inc
        = .error (.valueError
            "Input must be either a dict with 'results' or a list of search results"))
    ∧ (∀ (mt : Nat) (inc : Bool),
      deduplicate_and_format_sources (.dict none) mt inc
        = .error (.keyError "results"))
    ∧ (∀ (rs : List Source) (mt : Nat) (inc : Bool),
      ∃ res, deduplicate_and_format_sources (.dict (some rs)) mt inc = .ok res)
    ∧ (∀ (elems : List Elem) (mt : Nat) (inc : Bool),
      (∀ e ∈ elems, goodElem e) →
      ∃ res, deduplicate_and_format_sources (.list elems) mt inc = .ok res)
    ∧ (∀ (sr : SearchResponse) (mt : Nat) (inc : Bool) (msg : String),
      deduplicate_and_format_sources sr mt inc = .error (.valueError msg) →
      sr = .other) := by
  refine ⟨fun _ _ => rfl, fun _ _ => rfl, ?_, ?_, ?_⟩
  · intro rs mt inc
    obtain ⟨out, hout⟩ := dedupSources_ok (rs.map Item.record)
      (fun i hi => by
        obtain ⟨s, _, hs⟩ := List.mem_map.mp hi
        exact ⟨s, hs.symm⟩) []
    refine ⟨(pyStrip ("Sources:\n\n" ++ (formatBlocks out mt inc).1),
      (formatBlocks out mt inc).2), ?_⟩
    simp [deduplicate_and_format_sources, normalizeResponse, hout]
  · intro elems mt inc hgood
    obtain ⟨out, hout⟩ := dedupSources_ok
      (elems.foldr (fun e acc => elemItems e ++ acc) [])
      (goodElems_items elems hgood) []
    refine ⟨(pyStrip ("Sources:\n\n" ++ (formatBlocks out mt inc).1),
      (formatBlocks out mt inc).2), ?_⟩
    simp [deduplicate_and_format_sources, normalizeResponse, hout]
  · intro sr mt inc msg h
    cases sr with
    | other => rfl
    | dict results =>
        cases results with
        | none => simp [deduplicate_and_format_sources, normalizeResponse] at h
        | some rs =>
            cases hd : dedupSources [] (rs.map Item.record) with
            | error e =>
                have he := dedupSources_error _ _ _ hd
                subst he
                simp [deduplicate_and_format_sources, normalizeResponse, hd] at h
            | ok uniq =>
                simp [deduplicate_and_format_sources, normalizeResponse, hd] at h
    | list elems =>
        cases hd : dedupSources []
            (elems.foldr (fun e acc => elemItems e ++ acc) []) with
        | error e =>
            have he := dedupSources_error _ _ _ hd
            subst he
            simp [deduplicate_and_format_sources, normalizeResponse, hd] at h
        | ok uniq =>
            simp [deduplicate_and_format_sources, normalizeResponse, hd] at h

/-- Witness for C4 at concrete valid inputs. -/
theorem invalid_input_exact_witness :
    (∃ res, deduplicate_and_format_sources
        (.list [Elem.dictWithResults [⟨"A", "u1", "c1", none⟩], Elem.recs []])
        5 false = .ok res)
    ∧ deduplicate_and_format_sources .other 5 false
        = .error (.valueError
            "Input must be either a dict with 'results' or a list of search results") :=
  ⟨invalid_input_exact.2.2.2.1
      [Elem.dictWithResults [⟨"A", "u1", "c1", none⟩], Elem.recs []] 5 false
      (by
        intro e he
        cases List.mem_cons.mp he with
        | inl h1 => exact Or.inl ⟨[⟨"A", "u1", "c1", none⟩], h1⟩
        | inr h2 => exact Or.inr ⟨[], List.mem_singleton.mp h2⟩),
   invalid_input_exact.1 5 false⟩

/-- Counterexample to C4 as stated: a mapping without the `results` key is
"neither a mapping with key `results` nor a sequence of such mappings", yet
the code raises `KeyError('results')`, not the InvalidInput `ValueError`. -/
theorem invalid_input_counterexample :
    deduplicate_and_format_sources (.dict none) 5 false
      = .error (.keyError "results")
    ∧ ∀ msg : String, PyError.keyError "results" ≠ PyError.valueError msg := by
  constructor
  · rfl
  · intro msg h
    cases h


/-- The full output of the formatter on a single record with raw content
included, for every shape of `raw_content`. -/
lemma dedup_single_raw (t u c : String) (ro : Option (Option String))
    (mt : Nat) :
    deduplicate_and_format_sources (.dict (some [⟨t, u, c, ro⟩])) mt true
      = .ok (pyStrip ("Sources:\n\n" ++ ("Source " ++ t ++ ":\n===\n"
            ++ "URL: " ++ u ++ "\n===\n"
            ++ "Most relevant content from source: " ++ c ++ "\n===\n"
            ++ "Full source content limited to " ++ toString mt ++ " tokens: "
            ++ (if (rawOf ro).length > mt * 4
                then pySlice (mt * 4) (rawOf ro) ++ "... [truncated]"
                else rawOf ro)
            ++ "\n\n")),
          warnOf ro u) := by
  cases ro with
  | none =>
      simp [deduplicate_and_format_sources, normalizeResponse, dedupSources,
        hasUrl, formatBlocks, formatSource, rawOf, warnOf]
  | some o =>
      cases o with
      | none =>
          simp [deduplicate_and_format_sources, normalizeResponse, dedupSources,
            hasUrl, formatBlocks, formatSource, rawOf, warnOf]
      | some r =>
          simp [deduplicate_and_format_sources, normalizeResponse, dedupSources,
            hasUrl, formatBlocks, formatSource, rawOf, warnOf]

/-- Claim C2 (amended): with `max_tokens_per_source = 10` and
`include_raw_content = true` (so `char_limit = 40`), a raw_content string
of at most 40 characters is emitted untouched, and one of 41 or more
characters is cut to exactly its first 40 characters with the literal
marker "... [truncated]" appended. -/
theorem truncation_boundary :
    ∀ s : String,
      (s.length ≤ 40 →
        deduplicate_and_format_sources
            (.dict (some [⟨"t", "u", "c", some (some s)⟩])) 10 true
          = .ok (pyStrip ("Sources:\n\n" ++ ("Source " ++ "t" ++ ":\n===\n"
                ++ "URL: " ++ "u" ++ "\n===\n"
                ++ "Most relevant content from source: " ++ "c" ++ "\n===\n"
                ++ "Full source content limited to " ++ toString 10
                ++ " tokens: " ++ s ++ "\n\n")), []))
      ∧ (40 < s.length →
        deduplicate_and_format_sources
            (.dict (some [⟨"t", "u", "c", some (some s)⟩])) 10 true
          = .ok (pyStrip ("Sources:\n\n" ++ ("Source " ++ "t" ++ ":\n===\n"
                ++ "URL: " ++ "u" ++ "\n===\n"
                ++ "Most relevant content from source: " ++ "c" ++ "\n===\n"
                ++ "Full source content limited to " ++ toString 10
                ++ " tokens: " ++ (pySlice 40 s ++ "... [truncated]")
                ++ "\n\n")), [])) := by
  intro s
  constructor
  · intro h
    rw [dedup_single_raw]
    simp only [rawOf, warnOf]
    rw [if_neg (by omega)]
  · intro h
    rw [dedup_single_raw]
    simp only [rawOf, warnOf]
    rw [if_pos (by omega)]

/-- Witness for C2 at two concrete raw strings, one on each side of the
boundary. -/
theorem truncation_boundary_witness :
    deduplicate_and_format_sources
        (.dict (some [⟨"t", "u", "c", some (some "abc")⟩])) 10 true
      = .ok (pyStrip ("Sources:\n\n" ++ ("Source " ++ "t" ++ ":\n===\n"
            ++ "URL: " ++ "u" ++ "\n===\n"
            ++ "Most relevant content from source: " ++ "c" ++ "\n===\n"
            ++ "Full source content limited to " ++ toString 10
            ++ " tokens: " ++ "abc" ++ "\n\n")), []) :=
  (truncation_boundary "abc").1 (by decide)

/-- Counterexample to C2 as stated: a raw_content of exactly 41 characters
is NOT emitted untouched: the code cuts it to 40 characters and appends the
marker, and the result differs from the untouched 41-character string. -/
theorem truncation_boundary_counterexample :
    deduplicate_and_format_sources
        (.dict (some [⟨"t", "u", "c",
          some (some ⟨List.replicate 41 'a'⟩)⟩])) 10 true
      = .ok (pyStrip ("Sources:\n\n" ++ ("Source " ++ "t" ++ ":\n===\n"
            ++ "URL: " ++ "u" ++ "\n===\n"
            ++ "Most relevant content from source: " ++ "c" ++ "\n===\n"
            ++ "Full source content limited to " ++ toString 10
            ++ " tokens: "
            ++ ((⟨List.replicate 40 'a'⟩ : String) ++ "... [truncated]")
            ++ "\n\n")), [])
    ∧ (⟨List.replicate 40 'a'⟩ : String) ++ "... [truncated]"
        ≠ (⟨List.replicate 41 'a'⟩ : String) := by
  constructor
  · rfl
  · decide

/-- Claim C3 (amended): with raw content included, a record whose
`raw_content` key is absent and one whose value is `None` both behave as an
empty raw string: same formatted output (an empty raw-text block), no
exception.  The warning naming the source url is printed only when the
value is `None`; an absent key prints no warning. -/
theorem missing_raw_content :
    ∀ (t u c : String) (mt : Nat), ∃ out : String,
      deduplicate_and_format_sources
          (.dict (some [⟨t, u, c, some (some "")⟩])) mt true = .ok (out, [])
      ∧ deduplicate_and_format_sources
          (.dict (some [⟨t, u, c, none⟩])) mt true = .ok (out, [])
      ∧ deduplicate_and_format_sources
          (.dict (some [⟨t, u, c, some none⟩])) mt true
          = .ok (out, ["Warning: No raw_content found for source " ++ u]) := by
  intro t u c mt
  refine ⟨pyStrip ("Sources:\n\n" ++ ("Source " ++ t ++ ":\n===\n"
      ++ "URL: " ++ u ++ "\n===\n"
      ++ "Most relevant content from source: " ++ c ++ "\n===\n"
      ++ "Full source content limited to " ++ toString mt ++ " tokens: "
      ++ "" ++ "\n\n")), ?_, ?_, ?_⟩
  · rw [dedup_single_raw]
    simp only [rawOf, warnOf]
    rw [if_neg (by simp)]
  · rw [dedup_single_raw]
    simp only [rawOf, warnOf]
    rw [if_neg (by simp)]
  · rw [dedup_single_raw]
    simp only [rawOf, warnOf]
    rw [if_neg (by simp)]

/-- Counterexample to C3 as stated: a record whose `raw_content` key is
absent produces an empty warnings list — no warning identifying the url is
emitted, contrary to the claim. -/
theorem missing_raw_content_counterexample :
    deduplicate_and_format_sources (.dict (some [⟨"t", "u", "c", none⟩])) 10 true
      = .ok ("Sources:\n\nSource t:\n===\nURL: u\n===\nMost relevant content from source: c\n===\nFull source content limited to 10 tokens:",
             []) := by rfl
